/-
  Verification of the NNTP client command/response layer
  (package nntpclient, files src/unnamed/part_000 and src/client/client.go).

  The Go code is shallowly embedded: strings are Lean `String`s, the Go
  `strings` helpers used by the client (Split with a one-character
  separator, SplitN with limit 2, Fields, IndexAny, ToUpper) are modelled
  as executable functions on character lists, and the textproto transport
  is modelled as a scripted connection: a list of pending status-line
  read results, a list of pending dot-block read results, a list of write
  outcomes, and a log of lines successfully written.  Go runtime faults
  (index out of range, slice bounds out of range) are modelled as explicit
  `panic`-style constructors of the result types.
-/
import Mathlib

namespace NNTP

/-! ## Go string helpers (single-character separators, as used by the client) -/

/-- `strings.Split s (sep as one char)`: split on every occurrence of `c`.
    Always returns at least one element, like Go. -/
def splitCharList (c : Char) : List Char → List (List Char)
  | [] => [[]]
  | x :: xs =>
    if x = c then [] :: splitCharList c xs
    else
      match splitCharList c xs with
      | [] => [[x]]
      | y :: ys => (x :: y) :: ys

/-- `strings.Split` with a one-character separator, on `String`. -/
def goSplit (c : Char) (s : String) : List String :=
  (splitCharList c s.toList).map List.asString

/-- First occurrence of `c`: the part before and the part after. -/
def splitFirst (c : Char) : List Char → Option (List Char × List Char)
  | [] => none
  | x :: xs =>
    if x = c then some ([], xs)
    else (splitFirst c xs).map (fun p => (x :: p.1, p.2))

/-- `strings.SplitN s (sep as one char) 2`: at most two parts, split at the
    first occurrence of `c`. -/
def goSplitN2 (c : Char) (s : String) : List String :=
  match splitFirst c s.toList with
  | none => [s]
  | some (a, b) => [a.asString, b.asString]

/-- The white-space test of Go's `unicode.IsSpace` on the characters the
    client can meet (ASCII space classes plus NEL and NBSP). -/
def isGoSpace (c : Char) : Bool :=
  c = ' ' ∨ c = '\t' ∨ c = '\n' ∨ c = Char.ofNat 11 ∨ c = Char.ofNat 12 ∨
    c = '\r' ∨ c = Char.ofNat 0x85 ∨ c = Char.ofNat 0xA0

/-- Split on a character predicate (consecutive separators give empty parts). -/
def splitPredList (p : Char → Bool) : List Char → List (List Char)
  | [] => [[]]
  | x :: xs =>
    if p x then [] :: splitPredList p xs
    else
      match splitPredList p xs with
      | [] => [[x]]
      | y :: ys => (x :: y) :: ys

/-- `strings.Fields`: white-space separated fields, empties dropped. -/
def goFields (s : String) : List String :=
  ((splitPredList isGoSpace s.toList).filter (· ≠ [])).map List.asString

/-- `strings.IndexAny s "\t "`: index of the first tab or space, if any. -/
def indexAnyTabSpace (s : String) : Option Nat :=
  s.toList.findIdx? (fun ch => ch = '\t' ∨ ch = ' ')

/-- `strings.ToUpper`, character-wise (the capability data is ASCII). -/
def goToUpper (s : String) : String :=
  (s.toList.map Char.toUpper).asString

/-- `strconv.ParseInt s 10 64`: optional sign, at least one decimal digit,
    value within the signed 64-bit range; `none` on any failure. -/
def parseInt64 (s : String) : Option Int :=
  match s.toList with
  | [] => none
  | c :: rest =>
    let signed : Bool × List Char :=
      if c = '-' then (true, rest) else if c = '+' then (false, rest) else (false, c :: rest)
    match signed with
    | (neg, digits) =>
      if digits = [] then none
      else if digits.all Char.isDigit then
        let v : Nat := digits.foldl (fun a d => a * 10 + (d.toNat - 48)) 0
        let i : Int := if neg then -(v : Int) else (v : Int)
        if -(2 ^ 63) ≤ i ∧ i ≤ 2 ^ 63 - 1 then some i else none
      else none

/-! ## Transport model -/

/-- Errors surfaced by the transport / response-code check. -/
inductive TErr where
  /-- An I/O failure of the underlying stream (write or read). -/
  | io : TErr
  /-- `textproto.Error`: the response code did not satisfy the expected
      code; carries the actual code and message. -/
  | protocol (code : Int) (msg : String) : TErr
deriving DecidableEq, Repr

/-- The scripted textproto connection.  `reads` are the successive
    status-line read results (already parsed to code and message, as
    `textproto.ReadCodeLine` yields them before the expected-code check),
    `dots` the successive dot-block reads, `writeFails` the outcomes of
    successive writes (`true` = I/O failure), and `sent` the log of lines
    successfully written so far. -/
structure Conn where
  reads : List (Except TErr (Int × String)) := []
  dots : List (Except TErr (List String)) := []
  writeFails : List Bool := []
  sent : List String := []
deriving Repr

/-- `textproto.Conn.PrintfLine` (with the arguments already formatted in):
    writes one line, or fails per the script. -/
def Conn.printfLine (c : Conn) (line : String) : Conn × Option TErr :=
  match c.writeFails with
  | [] => ({ c with sent := c.sent ++ [line] }, none)
  | b :: rest =>
    if b then ({ c with writeFails := rest }, some .io)
    else ({ c with writeFails := rest, sent := c.sent ++ [line] }, none)

/-- Modelled from the spec: the expected-code check of the external
    textproto transport (`net/textproto`, not part of this repository).
    A 1-digit expected code matches on `code/100`, a 2-digit one on
    `code/10`, a 3-digit one exactly; any value outside `[1, 1000)`
    (such as the sentinel `-1`) disables the check. -/
def expectMismatch (expect code : Int) : Bool :=
  decide ((1 ≤ expect ∧ expect < 10 ∧ code / 100 ≠ expect) ∨
    (10 ≤ expect ∧ expect < 100 ∧ code / 10 ≠ expect) ∨
    (100 ≤ expect ∧ expect < 1000 ∧ code ≠ expect))

/-- `textproto.Conn.ReadCodeLine expect`: reads the next scripted status
    line; a code that fails the expected-code check becomes a
    protocol-mismatch error carrying the actual code and message. -/
def Conn.readCodeLine (c : Conn) (expect : Int) : Conn × Except TErr (Int × String) :=
  match c.reads with
  | [] => (c, .error .io)
  | r :: rest =>
    let c' := { c with reads := rest }
    match r with
    | .error e => (c', .error e)
    | .ok (code, msg) =>
      if expectMismatch expect code then (c', .error (.protocol code msg))
      else (c', .ok (code, msg))

/-- `textproto.Conn.ReadDotLines`: reads the next scripted dot-block. -/
def Conn.readDotLines (c : Conn) : Conn × Except TErr (List String) :=
  match c.dots with
  | [] => (c, .error .io)
  | d :: rest => ({ c with dots := rest }, d)

/-! ## Data model -/

/-- Modelled from the spec: `nntp.PostingStatus` from the root package of
    the repository (not under src/): one of Permitted, Moderated,
    NotPermitted. -/
inductive PostingStatus where
  | PostingPermitted
  | PostingModerated
  | PostingNotPermitted
deriving DecidableEq, Repr

/-- Modelled from the spec: the `nntp.Group` record from the root package
    of the repository (not under src/): name, low/high article numbers,
    article count, posting status. -/
structure Group where
  Name : String := ""
  Count : Int := 0
  High : Int := 0
  Low : Int := 0
  Posting : PostingStatus := .PostingNotPermitted
deriving DecidableEq, Repr

/-- The eight-field overview item (`OverItem` in the source). -/
structure OverItem where
  Number : String
  From : String
  Subject : String
  Date : String
  MessageId : String
  References : String
  bytesMetadata : String
  linesMetadata : String
deriving DecidableEq, Repr

/-- The NNTP client session: scripted connection, TLS flag, banner,
    capability cache (`none` models a nil Go slice), and a transport
    generation counter that increments when StartTLS swaps the
    textproto connection for one bound to the encrypted stream. -/
structure Client where
  conn : Conn
  connGen : Nat := 0
  tls : Bool := false
  Banner : String := ""
  capabilities : Option (List String) := none
deriving Repr

/-! ## Command/response engine -/

/-- `Client.Command`: write the command line, then read the status line
    under the expected-code check. -/
def Client.Command (cl : Client) (cmd : String) (expect : Int) :
    Client × Except TErr (Int × String) :=
  match cl.conn.printfLine cmd with
  | (conn', werr) =>
    let cl' := { cl with conn := conn' }
    match werr with
    | some e => (cl', .error e)
    | none =>
      match cl'.conn.readCodeLine expect with
      | (conn'', r) => ({ cl' with conn := conn'' }, r)

/-- `Client.asLines`: `Command` then `ReadDotLines`. -/
def Client.asLines (cl : Client) (cmd : String) (expect : Int) :
    Client × Except TErr (List String) :=
  match cl.Command cmd expect with
  | (cl', .error e) => (cl', .error e)
  | (cl', .ok _) =>
    match cl'.conn.readDotLines with
    | (conn', r) => ({ cl' with conn := conn' }, r)

/-! ## Authentication -/

/-- `Client.Authenticate user pass`: AUTHINFO USER (expect 381) then
    AUTHINFO PASS (expect 281); the first failure is returned and ends
    the call.  Success yields the 281 message. -/
def Client.Authenticate (cl : Client) (user pass : String) :
    Client × Except TErr String :=
  match cl.conn.printfLine ("authinfo user " ++ user) with
  | (conn₁, w₁) =>
    let cl₁ := { cl with conn := conn₁ }
    match w₁ with
    | some e => (cl₁, .error e)
    | none =>
      match cl₁.conn.readCodeLine 381 with
      | (conn₂, .error e) => ({ cl₁ with conn := conn₂ }, .error e)
      | (conn₂, .ok _) =>
        let cl₂ := { cl₁ with conn := conn₂ }
        match cl₂.conn.printfLine ("authinfo pass " ++ pass) with
        | (conn₃, w₂) =>
          let cl₃ := { cl₂ with conn := conn₃ }
          match w₂ with
          | some e => (cl₃, .error e)
          | none =>
            match cl₃.conn.readCodeLine 281 with
            | (conn₄, .error e) => ({ cl₃ with conn := conn₄ }, .error e)
            | (conn₄, .ok (_, msg)) => ({ cl₃ with conn := conn₄ }, .ok msg)

/-! ## Listing and group selection -/

/-- The posting-indicator mapping of the source (`parsePosting`). -/
def parsePosting (p : String) : PostingStatus :=
  if p = "y" then .PostingPermitted
  else if p = "m" then .PostingModerated
  else .PostingNotPermitted

/-- Outcome of processing one LIST data line. -/
inductive ListLineOut where
  | skip
  | panic
  | grp (g : Group)
deriving DecidableEq, Repr

/-- One iteration of the LIST loop: split on spaces, skip lines with
    fewer than 3 parts, parse high (`parts[1]`) and low (`parts[2]`),
    and on success index `parts[3]` for the posting indicator — a Go
    index-out-of-range fault when the line has exactly 3 parts. -/
def processListLine (l : String) : ListLineOut :=
  let parts := goSplit ' ' l
  if parts.length < 3 then .skip
  else
    match parseInt64 (parts.getD 1 ""), parseInt64 (parts.getD 2 "") with
    | some high, some low =>
      if 4 ≤ parts.length then
        .grp { Name := parts.getD 0 "", High := high, Low := low,
               Posting := parsePosting (parts.getD 3 "") }
      else .panic
    | _, _ => .skip

/-- The LIST loop over the data block; `none` models a runtime fault. -/
def listGroups : List String → Option (List Group)
  | [] => some []
  | l :: rest =>
    match processListLine l with
    | .panic => none
    | .skip => listGroups rest
    | .grp g => (listGroups rest).map (g :: ·)

/-- Result of `Client.List`. -/
inductive ListResult where
  | err (e : TErr)
  | panic
  | ok (gs : List Group)
deriving Repr

/-- Result of `Client.Group`. -/
inductive GroupResult where
  | err (e : TErr)
  | errParse
  | panic
  | ok (g : Group)
deriving DecidableEq, Repr

/-- Parsing of the 211 status message in `Client.Group`.  The source
    assigns a "Don't know how to parse result" error when the message
    does not have exactly 4 space-separated parts, but the very next
    assignment to `err` (from `strconv.ParseInt(parts[0], ...)`)
    overwrites it unconditionally, so that length check is a dead store
    with no observable effect; the indexing of `parts[1]`, `parts[2]`
    and `parts[3]` then faults when the message has fewer than 4 parts
    and the numeric prefixes parse. -/
def parseGroupMsg (msg : String) : GroupResult :=
  let parts := goSplit ' ' msg
  match parseInt64 (parts.getD 0 "") with
  | none => .errParse
  | some count =>
    if parts.length < 2 then .panic
    else
      match parseInt64 (parts.getD 1 "") with
      | none => .errParse
      | some low =>
        if parts.length < 3 then .panic
        else
          match parseInt64 (parts.getD 2 "") with
          | none => .errParse
          | some high =>
            if parts.length < 4 then .panic
            else .ok { Name := parts.getD 3 "", Count := count, Low := low,
                       High := high, Posting := .PostingNotPermitted }

/-- `Client.Group name`: issues `GROUP name` expecting 211 and parses
    the status message. -/
def Client.Group (cl : Client) (name : String) : Client × GroupResult :=
  match cl.Command ("GROUP " ++ name) 211 with
  | (cl', .error e) => (cl', .err e)
  | (cl', .ok (_, msg)) => (cl', parseGroupMsg msg)

/-! ## Overview parsing -/

/-- Outcome of processing one OVER data line. -/
inductive OverLineOut where
  | skip
  | panic
  | item (it : OverItem)
deriving DecidableEq, Repr

/-- One iteration of the OVER loop: split on tabs, skip lines with fewer
    than 5 parts, then build the item from `splitItem[0] .. splitItem[7]`
    — a Go index-out-of-range fault when the line has 5, 6 or 7 parts. -/
def processOverLine (l : String) : OverLineOut :=
  let s := goSplit '\t' l
  if s.length < 5 then .skip
  else if s.length < 8 then .panic
  else .item { Number := s.getD 0 "", Subject := s.getD 1 "",
               From := s.getD 2 "", Date := s.getD 3 "",
               MessageId := s.getD 4 "", References := s.getD 5 "",
               bytesMetadata := s.getD 6 "", linesMetadata := s.getD 7 "" }

/-- The OVER loop over the data block; `none` models a runtime fault. -/
def overItems : List String → Option (List OverItem)
  | [] => some []
  | l :: rest =>
    match processOverLine l with
    | .panic => none
    | .skip => overItems rest
    | .item it => (overItems rest).map (it :: ·)

/-- Result of `Client.Over`. -/
inductive OverResult where
  | badArgs
  | err (e : TErr)
  | panic
  | ok (items : List OverItem)
deriving Repr

/-- The command line `Client.Over` builds from its variadic arguments;
    `none` is the more-than-two-arguments usage error, raised before
    anything is sent. -/
def overCmd (args : List Int) : Option String :=
  match args with
  | [] => some "OVER"
  | [a] => some ("OVER " ++ toString a)
  | [a, b] => some ("OVER " ++ toString a ++ "-" ++ toString b)
  | _ => none

/-- `Client.Over args`: build the command line, issue it expecting 224,
    and run the per-line loop on the data block. -/
def Client.Over (cl : Client) (args : List Int) : Client × OverResult :=
  match overCmd args with
  | none => (cl, .badArgs)
  | some cmd =>
    match cl.asLines cmd 224 with
    | (cl', .error e) => (cl', .err e)
    | (cl', .ok lines) =>
      match overItems lines with
      | none => (cl', .panic)
      | some items => (cl', .ok items)

/-! ## Capability discovery -/

/-- `Client.Capabilities`: `asLines "CAPABILITIES" 101`, uppercase every
    line, replace the cached capability set, return it.  On any failure
    the cache is untouched. -/
def Client.Capabilities (cl : Client) : Client × Except TErr (List String) :=
  match cl.asLines "CAPABILITIES" 101 with
  | (cl', .error e) => (cl', .error e)
  | (cl', .ok caps) =>
    let caps' := caps.map goToUpper
    ({ cl' with capabilities := some caps' }, .ok caps')

/-- The per-line label test of `GetCapability`: the substring before the
    first tab/space equals the (uppercased) query, or the whole line
    does. -/
def capaMatches (capability capa : String) : Bool :=
  (match indexAnyTabSpace capa with
   | some i => decide ((capa.toList.take i).asString = capability)
   | none => false) || decide (capa = capability)

/-- The scan of `GetCapability` over a capability list: the first line
    whose label matches the uppercased query, or `""`. -/
def getCapabilityList (caps : List String) (capability : String) : String :=
  match caps.find? (capaMatches (goToUpper capability)) with
  | some l => l
  | none => ""

/-- `Client.GetCapability`: scan the cache (a nil cache scans as empty). -/
def Client.GetCapability (cl : Client) (capability : String) : String :=
  getCapabilityList (cl.capabilities.getD []) capability

/-- Result of `Client.HasCapabilityArgument`. -/
inductive CapResult where
  | errUnpopulated
  | errNoSuchCapability
  | panic
  | ok (b : Bool)
deriving DecidableEq, Repr

/-- `Client.HasCapabilityArgument`: "Capabilities unpopulated" on a nil
    cache, "No such capability" when no line matches, else membership of
    the uppercased argument among `strings.Fields(capLine)[1:]` — the
    `[1:]` slice faults (slice bounds out of range) when the matching
    line has no fields at all, i.e. is non-empty but all white-space. -/
def Client.HasCapabilityArgument (cl : Client) (capability argument : String) :
    CapResult :=
  match cl.capabilities with
  | none => .errUnpopulated
  | some caps =>
    let capLine := getCapabilityList caps capability
    if capLine = "" then .errNoSuchCapability
    else
      let fs := goFields capLine
      if fs.length = 0 then .panic
      else .ok ((fs.drop 1).contains (goToUpper argument))

/-! ## Article retrieval -/

/-- Result of `Client.articleish` (the returned dot-block reader is the
    connection's and is not modelled further). -/
inductive ArtResult where
  | err (e : TErr)
  | errParse
  | panic
  | ok (n : Int) (msg : String)
deriving DecidableEq, Repr

/-- The shared helper of Article/Head/Body: read the status line under
    the expected code, `SplitN(msg, " ", 2)`, parse `parts[0]` as a
    64-bit integer, and return `(n, parts[1])` — indexing `parts[1]` is
    a Go index-out-of-range fault when the message has no space. -/
def Client.articleish (cl : Client) (expected : Int) : Client × ArtResult :=
  match cl.conn.readCodeLine expected with
  | (conn', .error e) => ({ cl with conn := conn' }, .err e)
  | (conn', .ok (_, msg)) =>
    let cl' := { cl with conn := conn' }
    let parts := goSplitN2 ' ' msg
    match parseInt64 (parts.getD 0 "") with
    | none => (cl', .errParse)
    | some n =>
      if parts.length < 2 then (cl', .panic)
      else (cl', .ok n (parts.getD 1 ""))

/-- `Client.Article`: send `ARTICLE specifier`, then `articleish 220`. -/
def Client.Article (cl : Client) (specifier : String) : Client × ArtResult :=
  match cl.conn.printfLine ("ARTICLE " ++ specifier) with
  | (conn', some e) => ({ cl with conn := conn' }, .err e)
  | (conn', none) => { cl with conn := conn' }.articleish 220

/-- `Client.Head`: send `HEAD specifier`, then `articleish 221`. -/
def Client.Head (cl : Client) (specifier : String) : Client × ArtResult :=
  match cl.conn.printfLine ("HEAD " ++ specifier) with
  | (conn', some e) => ({ cl with conn := conn' }, .err e)
  | (conn', none) => { cl with conn := conn' }.articleish 221

/-- `Client.Body`: send `BODY specifier`, then `articleish 222`. -/
def Client.Body (cl : Client) (specifier : String) : Client × ArtResult :=
  match cl.conn.printfLine ("BODY " ++ specifier) with
  | (conn', some e) => ({ cl with conn := conn' }, .err e)
  | (conn', none) => { cl with conn := conn' }.articleish 222

/-! ## TLS upgrade -/

/-- Result of `Client.StartTLS`. -/
inductive StartTLSResult where
  | errAlreadyActive
  | err (e : TErr)
  | ok
deriving DecidableEq, Repr

/-- `Client.StartTLS`: error out at once when TLS is already active;
    otherwise send `STARTTLS` expecting 382, swap the textproto
    connection for one bound to the encrypted stream (modelled by the
    generation counter), mark TLS active, and refetch capabilities. -/
def Client.StartTLS (cl : Client) : Client × StartTLSResult :=
  if cl.tls then (cl, .errAlreadyActive)
  else
    match cl.Command "STARTTLS" 382 with
    | (cl1, .error e) => (cl1, .err e)
    | (cl1, .ok _) =>
      let cl2 := { cl1 with connGen := cl1.connGen + 1, tls := true }
      match cl2.Capabilities with
      | (cl3, .error e) => (cl3, .err e)
      | (cl3, .ok _) => (cl3, .ok)

/-- `Client.List sub` (the src/unnamed/part_000 version): issues
    `LIST[ sub]` expecting 215, reads the dot-block, and runs the
    per-line loop.  (Declared after the other methods so that the plain
    `List` type stays visible in their signatures.) -/
def Client.List (cl : Client) (sub : String) : Client × ListResult :=
  let cmd := if sub ≠ "" then "LIST " ++ sub else "LIST"
  match cl.Command cmd 215 with
  | (cl', .error e) => (cl', .err e)
  | (cl', .ok _) =>
    match cl'.conn.readDotLines with
    | (conn', .error e) => ({ cl' with conn := conn' }, .err e)
    | (conn', .ok lines) =>
      match listGroups lines with
      | none => ({ cl' with conn := conn' }, .panic)
      | some gs => ({ cl' with conn := conn' }, .ok gs)

/-- A client over an explicit scripted connection (used to state the
    theorems with fully general session state). -/
def mkClient (rs : List (Except TErr (Int × String)))
    (ds : List (Except TErr (List String))) (wf : List Bool)
    (s0 : List String) (g : Nat) (t : Bool) (b : String)
    (cp : Option (List String)) : Client :=
  { conn := { reads := rs, dots := ds, writeFails := wf, sent := s0 },
    connGen := g, tls := t, Banner := b, capabilities := cp }

/-! ## Theorems -/

/-- C1: the claim says every LIST data line that does not split into the
    four fields `{name, high, low, posting-indicator}` is skipped and no
    malformed line aborts the listing or causes a runtime fault.  The
    code guards only `len(parts) < 3` and then indexes `parts[3]`, so a
    three-field line whose numeric fields parse (here `"alt.bad 10 5"`)
    faults with an index-out-of-range panic, aborting the whole listing
    even though a well-formed entry precedes it. -/
theorem c1_list_three_field_line_faults :
    (Client.List
      (mkClient [.ok (215, "list follows")]
        [.ok ["alt.good 20 10 y", "alt.bad 10 5"]] [] [] 0 false "" none)
      "").2 = ListResult.panic := by
  rfl

/-- C2: the claim says every OVER data line with fewer than eight
    tab-separated fields is silently skipped with no runtime fault.  The
    code guards only `len(splitItem) < 5` and then indexes
    `splitItem[5..7]`, so a five-field line faults with an
    index-out-of-range panic instead of being skipped. -/
theorem c2_over_five_field_line_faults :
    (Client.Over
      (mkClient [.ok (224, "overview follows")]
        [.ok [String.intercalate "\t" ["1", "subj", "from", "date", "<id@x>"]]]
        [] [] 0 false "" none)
      []).2 = OverResult.panic := by
  rfl

/-- C3: the claim says a 211 status message with other than exactly four
    space-separated fields makes Group return a parse error and no Group
    value.  The code assigns that parse error but never returns it: the
    next assignment to `err` overwrites it, so the five-field message
    `"5 10 20 alt.test extra"` is accepted and Group returns a value
    (Count 5, Low 10, High 20, Name "alt.test") with no error. -/
theorem c3_group_five_fields_accepted :
    (Client.Group
      (mkClient [.ok (211, "5 10 20 alt.test extra")] [] [] [] 0 false "" none)
      "alt.test").2 =
      GroupResult.ok { Name := "alt.test", Count := 5, Low := 10, High := 20,
                       Posting := .PostingNotPermitted } := by
  rfl

theorem expectMismatch_iff (e code : Int) :
    expectMismatch e code = true ↔
      ((1 ≤ e ∧ e < 10 ∧ code / 100 ≠ e) ∨ (10 ≤ e ∧ e < 100 ∧ code / 10 ≠ e) ∨
        (100 ≤ e ∧ e < 1000 ∧ code ≠ e)) := by
  simp [expectMismatch]

theorem Command_result (rest : List (Except TErr (Int × String)))
    (ds : List (Except TErr (List String))) (s0 : List String) (g : Nat)
    (t : Bool) (b : String) (cp : Option (List String)) (cmd msg : String)
    (e code : Int) :
    ((mkClient (.ok (code, msg) :: rest) ds [] s0 g t b cp).Command cmd e).2 =
      if expectMismatch e code then .error (.protocol code msg)
      else .ok (code, msg) := by
  by_cases hm : expectMismatch e code <;>
    simp [mkClient, Client.Command, Conn.printfLine, Conn.readCodeLine, hm]

/-- C4: the expected-code contract of `Command` (the check itself lives
    in the external textproto transport and is modelled from the spec):
    a k-digit expected code (1 ≤ k ≤ 3) succeeds iff the response code's
    leading k digits equal it — a 3-digit expected code requires exact
    equality and expected value 2 accepts exactly [200, 300) — otherwise
    it fails with an error carrying the actual code and message, and the
    sentinel −1 accepts any response code. -/
theorem c4_command_expected_code (rest : List (Except TErr (Int × String)))
    (ds : List (Except TErr (List String))) (s0 : List String) (g : Nat)
    (t : Bool) (b : String) (cp : Option (List String)) (cmd msg : String)
    (e code : Int) (hcode : 100 ≤ code ∧ code < 1000) :
    (1 ≤ e ∧ e < 10 →
      (((mkClient (.ok (code, msg) :: rest) ds [] s0 g t b cp).Command cmd e).2 =
          .ok (code, msg) ↔ code / 100 = e)) ∧
    (10 ≤ e ∧ e < 100 →
      (((mkClient (.ok (code, msg) :: rest) ds [] s0 g t b cp).Command cmd e).2 =
          .ok (code, msg) ↔ code / 10 = e)) ∧
    (100 ≤ e ∧ e < 1000 →
      (((mkClient (.ok (code, msg) :: rest) ds [] s0 g t b cp).Command cmd e).2 =
          .ok (code, msg) ↔ code = e)) ∧
    (e = 2 →
      (((mkClient (.ok (code, msg) :: rest) ds [] s0 g t b cp).Command cmd e).2 =
          .ok (code, msg) ↔ 200 ≤ code ∧ code < 300)) ∧
    (e = -1 →
      ((mkClient (.ok (code, msg) :: rest) ds [] s0 g t b cp).Command cmd e).2 =
        .ok (code, msg)) ∧
    (expectMismatch e code = true →
      ((mkClient (.ok (code, msg) :: rest) ds [] s0 g t b cp).Command cmd e).2 =
        .error (.protocol code msg)) := by
  obtain ⟨hc1, hc2⟩ := hcode
  refine ⟨?_, ?_, ?_, ?_, ?_, ?_⟩ <;> intro h <;> rw [Command_result]
  · by_cases hm : expectMismatch e code <;> simp [hm] <;>
      [skip; skip] <;> rw [expectMismatch_iff] at hm <;> omega
  · by_cases hm : expectMismatch e code <;> simp [hm] <;>
      rw [expectMismatch_iff] at hm <;> omega
  · by_cases hm : expectMismatch e code <;> simp [hm] <;>
      rw [expectMismatch_iff] at hm <;> omega
  · subst h
    by_cases hm : expectMismatch 2 code <;> simp [hm] <;>
      rw [expectMismatch_iff] at hm <;> omega
  · subst h
    have hm : expectMismatch (-1) code = false := by
      rw [Bool.eq_false_iff]
      intro hc
      rw [expectMismatch_iff] at hc
      omega
    simp [hm]
  · simp [h]

theorem c4_command_expected_code_witness :
    ((mkClient [.ok ((204 : Int), "closing")] [] [] [] 0 false "" none).Command
        "QUIT" 2).2 = .ok ((204 : Int), "closing") :=
  ((c4_command_expected_code [] [] [] 0 false "" none "QUIT" "closing" 2 204
      (by decide)).1 (by decide)).mpr (by decide)

theorem asLines_sent (rs : List (Except TErr (Int × String)))
    (ds : List (Except TErr (List String))) (s0 : List String) (g : Nat)
    (t : Bool) (b : String) (cp : Option (List String)) (cmd : String)
    (exp : Int) :
    (((mkClient rs ds [] s0 g t b cp).asLines cmd exp).1).conn.sent =
      s0 ++ [cmd] := by
  cases rs with
  | nil => rfl
  | cons r rest =>
    cases r with
    | error e => rfl
    | ok p =>
      obtain ⟨code, msg⟩ := p
      by_cases hm : expectMismatch exp code
      · simp [mkClient, Client.asLines, Client.Command, Conn.printfLine,
          Conn.readCodeLine, hm]
      · cases ds with
        | nil =>
          simp [mkClient, Client.asLines, Client.Command, Conn.printfLine,
            Conn.readCodeLine, Conn.readDotLines, hm]
        | cons d ds' =>
          cases d <;>
            simp [mkClient, Client.asLines, Client.Command, Conn.printfLine,
              Conn.readCodeLine, Conn.readDotLines, hm]

theorem Over_sent (rs : List (Except TErr (Int × String)))
    (ds : List (Except TErr (List String))) (s0 : List String) (g : Nat)
    (t : Bool) (b : String) (cp : Option (List String)) (args : List Int)
    (cmd : String) (h : overCmd args = some cmd) :
    (((mkClient rs ds [] s0 g t b cp).Over args).1).conn.sent = s0 ++ [cmd] := by
  have hs := asLines_sent rs ds s0 g t b cp cmd 224
  rcases hAL : (mkClient rs ds [] s0 g t b cp).asLines cmd 224 with ⟨cl', r⟩
  rw [hAL] at hs
  match args, h with
  | [], h =>
    injection h with h'
    subst h'
    cases r with
    | error e => simpa [Client.Over, overCmd, hAL] using hs
    | ok lines =>
      cases hOI : overItems lines <;>
        simpa [Client.Over, overCmd, hAL, hOI] using hs
  | [a], h =>
    injection h with h'
    subst h'
    cases r with
    | error e => simpa [Client.Over, overCmd, hAL] using hs
    | ok lines =>
      cases hOI : overItems lines <;>
        simpa [Client.Over, overCmd, hAL, hOI] using hs
  | [a, a'], h =>
    injection h with h'
    subst h'
    cases r with
    | error e => simpa [Client.Over, overCmd, hAL] using hs
    | ok lines =>
      cases hOI : overItems lines <;>
        simpa [Client.Over, overCmd, hAL, hOI] using hs

/-- C7: `Over` with zero arguments sends exactly `OVER`, with one
    argument `n` exactly `OVER n`, with two arguments `(a, b)` exactly
    `OVER a-b`, and with three or more arguments it returns the
    argument-count error before anything is sent, leaving the session
    and transport untouched. -/
theorem c7_over_argument_rendering (rs : List (Except TErr (Int × String)))
    (ds : List (Except TErr (List String))) (s0 : List String) (g : Nat)
    (t : Bool) (b : String) (cp : Option (List String)) :
    (((mkClient rs ds [] s0 g t b cp).Over []).1).conn.sent = s0 ++ ["OVER"] ∧
    (∀ a : Int, (((mkClient rs ds [] s0 g t b cp).Over [a]).1).conn.sent =
      s0 ++ ["OVER " ++ toString a]) ∧
    (∀ a a' : Int, (((mkClient rs ds [] s0 g t b cp).Over [a, a']).1).conn.sent =
      s0 ++ ["OVER " ++ toString a ++ "-" ++ toString a']) ∧
    (∀ args : List Int, 3 ≤ args.length →
      (mkClient rs ds [] s0 g t b cp).Over args =
        (mkClient rs ds [] s0 g t b cp, .badArgs)) := by
  refine ⟨?_, ?_, ?_, ?_⟩
  · exact Over_sent rs ds s0 g t b cp [] "OVER" rfl
  · intro a
    exact Over_sent rs ds s0 g t b cp [a] _ rfl
  · intro a a'
    exact Over_sent rs ds s0 g t b cp [a, a'] _ rfl
  · intro args hlen
    match args with
    | a₁ :: a₂ :: a₃ :: tl => rfl

theorem c7_over_argument_rendering_witness :
    ((mkClient [.ok ((224 : Int), "overview follows")] [.ok []] [] [] 0 false ""
        none).Over [5, 9]).1.conn.sent = ["OVER 5-9"] ∧
    (mkClient [] [] [] [] 0 false "" none).Over [1, 2, 3] =
      (mkClient [] [] [] [] 0 false "" none, .badArgs) := by
  constructor
  · exact (c7_over_argument_rendering [.ok ((224 : Int), "overview follows")]
      [.ok []] [] 0 false "" none).2.2.1 5 9
  · exact (c7_over_argument_rendering [] [] [] 0 false "" none).2.2.2 [1, 2, 3]
      (by decide)

/-- C5: when TLS is already active, `StartTLS` returns the error at once
    with the session (including the sent-line log, the capability cache
    and the transport) unchanged; on a session without TLS whose
    STARTTLS command is answered 382, it swaps the transport (generation
    counter +1), marks TLS active and refetches capabilities exactly
    once — the sent log gains exactly `STARTTLS` then one
    `CAPABILITIES`, and the cache becomes the uppercased fetched lines.
    The last conjunct: even when the refetch read fails, the swap and
    the single refetch attempt have happened. -/
theorem c5_starttls_behavior (rs : List (Except TErr (Int × String)))
    (ds : List (Except TErr (List String))) (wf : List Bool) (s0 : List String)
    (g : Nat) (b : String) (cp : Option (List String)) (m1 m2 : String)
    (capLines : List String) (rest : List (Except TErr (Int × String)))
    (ds' : List (Except TErr (List String))) (e : TErr) :
    ((mkClient rs ds wf s0 g true b cp).StartTLS =
      (mkClient rs ds wf s0 g true b cp, .errAlreadyActive)) ∧
    ((mkClient (.ok (382, m1) :: .ok (101, m2) :: rest) (.ok capLines :: ds')
        [] s0 g false b cp).StartTLS =
      (mkClient rest ds' [] (s0 ++ ["STARTTLS", "CAPABILITIES"]) (g + 1) true b
        (some (capLines.map goToUpper)), .ok)) ∧
    ((mkClient (.ok (382, m1) :: .error e :: rest) ds' [] s0 g false b
        cp).StartTLS =
      (mkClient rest ds' [] (s0 ++ ["STARTTLS", "CAPABILITIES"]) (g + 1) true b
        cp, .err e)) := by
  have h382 : expectMismatch 382 382 = false := by decide
  have h101 : expectMismatch 101 101 = false := by decide
  refine ⟨rfl, ?_, ?_⟩ <;>
    simp [mkClient, Client.StartTLS, Client.Command, Client.Capabilities,
      Client.asLines, Conn.printfLine, Conn.readCodeLine, Conn.readDotLines,
      h382, h101]

/-- C9: a successful `Capabilities` call returns the data-block lines of
    `CAPABILITIES` (code 101) with every line uppercased and replaces
    the cached capability set with exactly that list; on a write
    failure, a read failure, a code mismatch, or a dot-block read
    failure, the previously cached set `cp` is left unchanged. -/
theorem c9_capabilities_cache (rs rest : List (Except TErr (Int × String)))
    (ds ds' : List (Except TErr (List String))) (wf' : List Bool)
    (s0 lines : List String) (g : Nat) (t : Bool) (b m m' : String)
    (cp : Option (List String)) (e : TErr) (code : Int) :
    ((mkClient (.ok (101, m) :: rest) (.ok lines :: ds') [] s0 g t b
        cp).Capabilities =
      (mkClient rest ds' [] (s0 ++ ["CAPABILITIES"]) g t b
        (some (lines.map goToUpper)), .ok (lines.map goToUpper))) ∧
    ((mkClient rs ds (true :: wf') s0 g t b cp).Capabilities =
      (mkClient rs ds wf' s0 g t b cp, .error .io)) ∧
    (((mkClient (.error e :: rest) ds [] s0 g t b cp).Capabilities).2 =
        .error e ∧
      ((mkClient (.error e :: rest) ds [] s0 g t b cp).Capabilities).1.capabilities =
        cp) ∧
    (code ≠ 101 →
      ((mkClient (.ok (code, m') :: rest) ds [] s0 g t b cp).Capabilities).2 =
          .error (.protocol code m') ∧
        ((mkClient (.ok (code, m') :: rest) ds [] s0 g t b
            cp).Capabilities).1.capabilities = cp) ∧
    (((mkClient (.ok (101, m) :: rest) (.error e :: ds') [] s0 g t b
          cp).Capabilities).2 = .error e ∧
      ((mkClient (.ok (101, m) :: rest) (.error e :: ds') [] s0 g t b
          cp).Capabilities).1.capabilities = cp) := by
  have h101 : expectMismatch 101 101 = false := by decide
  refine ⟨?_, rfl, ⟨rfl, rfl⟩, ?_, ?_⟩
  · simp [mkClient, Client.Capabilities, Client.asLines, Client.Command,
      Conn.printfLine, Conn.readCodeLine, Conn.readDotLines, h101]
  · intro hne
    have hm : expectMismatch 101 code = true := by
      rw [expectMismatch_iff]; omega
    constructor <;>
      simp [mkClient, Client.Capabilities, Client.asLines, Client.Command,
        Conn.printfLine, Conn.readCodeLine, hm]
  · constructor <;>
      simp [mkClient, Client.Capabilities, Client.asLines, Client.Command,
        Conn.printfLine, Conn.readCodeLine, Conn.readDotLines, h101]

theorem c9_capabilities_cache_witness :
    ((mkClient [.ok ((480 : Int), "auth required")] [] [] [] 0 false ""
        (some ["OVER"])).Capabilities).2 =
        .error (.protocol 480 "auth required") ∧
      ((mkClient [.ok ((480 : Int), "auth required")] [] [] [] 0 false ""
          (some ["OVER"])).Capabilities).1.capabilities = some ["OVER"] :=
  (c9_capabilities_cache [] [] [] [] [] [] [] 0 false "" "" "auth required"
    (some ["OVER"]) .io 480).2.2.2.1 (by decide)

/-- C6: `Authenticate` first sends the AUTHINFO USER line; only when
    that read yields code 381 does it send AUTHINFO PASS; it succeeds
    iff the reads yield 381 then 281 in that order; any other code or
    transport failure at either step is returned as that step's error
    without performing the remaining step (the sent log and the
    unconsumed read script witness the omitted steps). -/
theorem c6_authenticate_sequence (r1 r2 : Except TErr (Int × String))
    (rest rest' : List (Except TErr (Int × String)))
    (ds : List (Except TErr (List String))) (s0 : List String) (g : Nat)
    (t : Bool) (b : String) (cp : Option (List String)) (user pass m1 : String) :
    (∀ e : TErr, r1 = .error e →
      ((mkClient (r1 :: r2 :: rest) ds [] s0 g t b cp).Authenticate user
            pass).2 = .error e ∧
        ((mkClient (r1 :: r2 :: rest) ds [] s0 g t b cp).Authenticate user
              pass).1.conn.sent = s0 ++ ["authinfo user " ++ user]) ∧
    (∀ (c1 : Int) (m1' : String), r1 = .ok (c1, m1') → c1 ≠ 381 →
      ((mkClient (r1 :: r2 :: rest) ds [] s0 g t b cp).Authenticate user
            pass).2 = .error (.protocol c1 m1') ∧
        ((mkClient (r1 :: r2 :: rest) ds [] s0 g t b cp).Authenticate user
              pass).1.conn.sent = s0 ++ ["authinfo user " ++ user]) ∧
    (∀ (m1' : String) (e : TErr), r1 = .ok (381, m1') → r2 = .error e →
      ((mkClient (r1 :: r2 :: rest) ds [] s0 g t b cp).Authenticate user
            pass).2 = .error e ∧
        ((mkClient (r1 :: r2 :: rest) ds [] s0 g t b cp).Authenticate user
              pass).1.conn.sent =
          s0 ++ ["authinfo user " ++ user, "authinfo pass " ++ pass]) ∧
    (∀ (m1' : String) (c2 : Int) (m2' : String), r1 = .ok (381, m1') →
      r2 = .ok (c2, m2') → c2 ≠ 281 →
      ((mkClient (r1 :: r2 :: rest) ds [] s0 g t b cp).Authenticate user
            pass).2 = .error (.protocol c2 m2')) ∧
    (∀ m1' m2' : String, r1 = .ok (381, m1') → r2 = .ok (281, m2') →
      (mkClient (r1 :: r2 :: rest) ds [] s0 g t b cp).Authenticate user pass =
        (mkClient rest ds []
          (s0 ++ ["authinfo user " ++ user, "authinfo pass " ++ pass]) g t b
          cp, .ok m2')) ∧
    ((mkClient (r1 :: r2 :: rest) ds [true] s0 g t b cp).Authenticate user
        pass =
      (mkClient (r1 :: r2 :: rest) ds [] s0 g t b cp, .error .io)) ∧
    ((mkClient (.ok (381, m1) :: rest') ds [false, true] s0 g t b
        cp).Authenticate user pass =
      (mkClient rest' ds [] (s0 ++ ["authinfo user " ++ user]) g t b cp,
        .error .io)) ∧
    ((∃ m : String,
        ((mkClient (r1 :: r2 :: rest) ds [] s0 g t b cp).Authenticate user
            pass).2 = .ok m) ↔
      (∃ m1' m2' : String, r1 = .ok (381, m1') ∧ r2 = .ok (281, m2'))) := by
  have h381 : expectMismatch 381 381 = false := by decide
  have h281 : expectMismatch 281 281 = false := by decide
  have hmk : ∀ (c e : Int), c ≠ e → 100 ≤ e → e < 1000 →
      expectMismatch e c = true := by
    intro c e hne he1 he2
    rw [expectMismatch_iff]
    omega
  refine ⟨?_, ?_, ?_, ?_, ?_, rfl, rfl, ?_⟩
  · rintro e rfl
    exact ⟨rfl, rfl⟩
  · rintro c1 m1' rfl hne
    have hm := hmk c1 381 hne (by decide) (by decide)
    constructor <;>
      simp [mkClient, Client.Authenticate, Conn.printfLine, Conn.readCodeLine,
        hm]
  · rintro m1' e rfl rfl
    constructor <;>
      simp [mkClient, Client.Authenticate, Conn.printfLine, Conn.readCodeLine,
        h381]
  · rintro m1' c2 m2' rfl rfl hne
    have hm := hmk c2 281 hne (by decide) (by decide)
    simp [mkClient, Client.Authenticate, Conn.printfLine, Conn.readCodeLine,
      h381, hm]
  · rintro m1' m2' rfl rfl
    simp [mkClient, Client.Authenticate, Conn.printfLine, Conn.readCodeLine,
      h381, h281]
  · constructor
    · rintro ⟨m, hm⟩
      rcases r1 with e1 | ⟨c1, m1'⟩
      · simp [mkClient, Client.Authenticate, Conn.printfLine,
          Conn.readCodeLine] at hm
      · by_cases hc1 : c1 = 381
        · subst hc1
          rcases r2 with e2 | ⟨c2, m2'⟩
          · simp [mkClient, Client.Authenticate, Conn.printfLine,
              Conn.readCodeLine, h381] at hm
          · by_cases hc2 : c2 = 281
            · subst hc2
              exact ⟨m1', m2', rfl, rfl⟩
            · have hm2 := hmk c2 281 hc2 (by decide) (by decide)
              simp [mkClient, Client.Authenticate, Conn.printfLine,
                Conn.readCodeLine, h381, hm2] at hm
        · have hm1 := hmk c1 381 hc1 (by decide) (by decide)
          simp [mkClient, Client.Authenticate, Conn.printfLine,
            Conn.readCodeLine, hm1] at hm
    · rintro ⟨m1', m2', rfl, rfl⟩
      refine ⟨m2', ?_⟩
      simp [mkClient, Client.Authenticate, Conn.printfLine, Conn.readCodeLine,
        h381, h281]

theorem c6_authenticate_sequence_witness :
    ((mkClient [.ok ((381 : Int), "password required"),
        .ok ((281 : Int), "authenticated")] [] [] [] 0 false "" none).Authenticate
        "alice" "secret") =
      (mkClient [] [] [] ["authinfo user alice", "authinfo pass secret"] 0
        false "" none, .ok "authenticated") :=
  (c6_authenticate_sequence (.ok ((381 : Int), "password required"))
    (.ok ((281 : Int), "authenticated")) [] [] [] [] 0 false "" none "alice"
    "secret" "").2.2.2.2.1 "password required" "authenticated" rfl rfl

/-- C8 counterexample: with the cache holding the single line `" "` and
    the label `""`, that line's label does match under the claim's rule
    (the substring before the first whitespace is `""`, witnessed by the
    first conjunct), so the claim requires the membership answer
    `ok false`; the code instead hits `strings.Fields(capLine)[1:]` on
    a field-less line and faults with a slice-bounds panic. -/
theorem c8_whitespace_capability_line_faults :
    capaMatches (goToUpper "") " " = true ∧
    (mkClient [] [] [] [] 0 false "" (some [" "])).HasCapabilityArgument ""
        "ACTIVE" = CapResult.panic :=
  ⟨rfl, rfl⟩

/-- C8 (amended): `HasCapabilityArgument` fails with the "capabilities
    unpopulated" error when the cache was never populated, fails with
    the "no such capability" error when no cached line's label matches
    the uppercased label, and otherwise — provided the first matching
    line contains at least one whitespace-delimited token — returns true
    iff the uppercased argument is a member of the tokens after the
    label; a matching line with no tokens instead faults (slice bounds)
    when non-empty, and an empty matching line is reported as "no such
    capability".  After caching `["LIST ACTIVE NEWGROUPS", "OVER"]`,
    `GetCapability "list"` returns `"LIST ACTIVE NEWGROUPS"` and
    `HasCapabilityArgument "LIST" "active"` returns true. -/
theorem c8_capability_lookup (caps : List String) (label arg line : String)
    (rs : List (Except TErr (Int × String)))
    (ds : List (Except TErr (List String))) (wf : List Bool)
    (s0 : List String) (g : Nat) (t : Bool) (b : String) :
    ((mkClient rs ds wf s0 g t b none).HasCapabilityArgument label arg =
      .errUnpopulated) ∧
    (caps.find? (capaMatches (goToUpper label)) = none →
      (mkClient rs ds wf s0 g t b (some caps)).HasCapabilityArgument label
          arg = .errNoSuchCapability) ∧
    (caps.find? (capaMatches (goToUpper label)) = some line →
      goFields line ≠ [] →
      (mkClient rs ds wf s0 g t b (some caps)).HasCapabilityArgument label
          arg = .ok (((goFields line).drop 1).contains (goToUpper arg))) ∧
    ((mkClient rs ds wf s0 g t b
        (some ["LIST ACTIVE NEWGROUPS", "OVER"])).GetCapability "list" =
      "LIST ACTIVE NEWGROUPS") ∧
    ((mkClient rs ds wf s0 g t b
        (some ["LIST ACTIVE NEWGROUPS", "OVER"])).HasCapabilityArgument "LIST"
        "active" = .ok true) := by
  refine ⟨rfl, ?_, ?_, rfl, rfl⟩
  · intro h
    simp [mkClient, Client.HasCapabilityArgument, getCapabilityList, h]
  · intro h hne
    have hline : line ≠ "" := by
      intro h0
      subst h0
      exact hne rfl
    have hlen : (goFields line).length ≠ 0 := by
      simpa [List.length_eq_zero] using hne
    simp [mkClient, Client.HasCapabilityArgument, getCapabilityList, h, hline,
      hlen]

theorem c8_capability_lookup_witness :
    (mkClient [] [] [] [] 0 false ""
        (some ["LIST ACTIVE NEWGROUPS", "OVER"])).HasCapabilityArgument "over"
        "MSGID" = CapResult.ok false :=
  (c8_capability_lookup ["LIST ACTIVE NEWGROUPS", "OVER"] "over" "MSGID"
    "OVER" [] [] [] [] 0 false "").2.2.1 rfl (by decide)

theorem splitFirst_eq_none (c : Char) (l : List Char) :
    splitFirst c l = none ↔ c ∉ l := by
  induction l with
  | nil => simp [splitFirst]
  | cons x xs ih =>
    by_cases h : x = c
    · subst h
      simp [splitFirst]
    · simp [splitFirst, h, Option.map_eq_none', ih, List.mem_cons, Ne.symm h]

theorem splitFirst_append (c : Char) (pre post : List Char) (hpre : c ∉ pre) :
    splitFirst c (pre ++ c :: post) = some (pre, post) := by
  induction pre with
  | nil => simp [splitFirst]
  | cons x xs ih =>
    have hx : x ≠ c := fun h => hpre (by simp [h])
    have hxs : c ∉ xs := fun h => hpre (by simp [h])
    simp [splitFirst, hx, ih hxs]

/-- C10: in Article/Head/Body, once the command is written and the
    status line carries the expected code (220/221/222), the shared
    helper splits the status message on the first space; it returns the
    (articleNumber, remainder) pair only when the message contains at
    least one space — and then the pair is the parsed first token and
    the remainder of the message — while a status message containing no
    space whose sole token parses as a 64-bit integer makes the helper
    index position 1 of a one-element split: a runtime
    index-out-of-range fault instead of an error. -/
theorem c10_articleish_space_split (rest : List (Except TErr (Int × String)))
    (ds : List (Except TErr (List String))) (s0 : List String) (g : Nat)
    (t : Bool) (b : String) (cp : Option (List String)) (spec msg : String) :
    ((' ' ∉ msg.toList) → ∀ n : Int, parseInt64 msg = some n →
      ((mkClient (.ok (220, msg) :: rest) ds [] s0 g t b cp).Article spec).2 =
        .panic) ∧
    ((' ' ∉ msg.toList) → ∀ n : Int, parseInt64 msg = some n →
      ((mkClient (.ok (221, msg) :: rest) ds [] s0 g t b cp).Head spec).2 =
        .panic) ∧
    ((' ' ∉ msg.toList) → ∀ n : Int, parseInt64 msg = some n →
      ((mkClient (.ok (222, msg) :: rest) ds [] s0 g t b cp).Body spec).2 =
        .panic) ∧
    (∀ (k : Int) (m : String),
      ((mkClient (.ok (220, msg) :: rest) ds [] s0 g t b cp).Article spec).2 =
        .ok k m → ' ' ∈ msg.toList) ∧
    (∀ pre post : List Char, msg.toList = pre ++ ' ' :: post → ' ' ∉ pre →
      ∀ n : Int, parseInt64 pre.asString = some n →
      ((mkClient (.ok (220, msg) :: rest) ds [] s0 g t b cp).Article spec).2 =
        .ok n post.asString) := by
  have h220 : expectMismatch 220 220 = false := by decide
  have h221 : expectMismatch 221 221 = false := by decide
  have h222 : expectMismatch 222 222 = false := by decide
  refine ⟨?_, ?_, ?_, ?_, ?_⟩
  · intro hns n hn
    have hsf : splitFirst ' ' msg.data = none :=
      (splitFirst_eq_none _ _).mpr hns
    simp [mkClient, Client.Article, Client.articleish, Conn.printfLine,
      Conn.readCodeLine, h220, goSplitN2, hsf, hn]
  · intro hns n hn
    have hsf : splitFirst ' ' msg.data = none :=
      (splitFirst_eq_none _ _).mpr hns
    simp [mkClient, Client.Head, Client.articleish, Conn.printfLine,
      Conn.readCodeLine, h221, goSplitN2, hsf, hn]
  · intro hns n hn
    have hsf : splitFirst ' ' msg.data = none :=
      (splitFirst_eq_none _ _).mpr hns
    simp [mkClient, Client.Body, Client.articleish, Conn.printfLine,
      Conn.readCodeLine, h222, goSplitN2, hsf, hn]
  · intro k m hok
    by_contra hns
    have hsf : splitFirst ' ' msg.data = none :=
      (splitFirst_eq_none _ _).mpr hns
    rcases hpn : parseInt64 msg with _ | n <;>
      simp [mkClient, Client.Article, Client.articleish, Conn.printfLine,
        Conn.readCodeLine, h220, goSplitN2, hsf, hpn] at hok
  · intro pre post hmsg hns n hn
    have hsf : splitFirst ' ' msg.data = some (pre, post) := by
      show splitFirst ' ' msg.toList = some (pre, post)
      rw [hmsg]
      exact splitFirst_append _ _ _ hns
    simp [mkClient, Client.Article, Client.articleish, Conn.printfLine,
      Conn.readCodeLine, h220, goSplitN2, hsf, hn]

theorem c10_articleish_space_split_witness :
    ((mkClient [.ok ((220 : Int), "123")] [] [] [] 0 false "" none).Article
        "123").2 = ArtResult.panic ∧
    ((mkClient [.ok ((220 : Int), "123 <id@x> article follows")] [] [] [] 0
        false "" none).Article "123").2 =
      ArtResult.ok 123 "<id@x> article follows" := by
  constructor
  · exact (c10_articleish_space_split [] [] [] 0 false "" none "123"
      "123").1 (by decide) 123 rfl
  · exact (c10_articleish_space_split [] [] [] 0 false "" none "123"
      "123 <id@x> article follows").2.2.2.2 "123".toList
      "<id@x> article follows".toList (by decide) (by decide) 123 rfl

end NNTP
